import Mathlib

/-!
# Verification of the multi-provider AI completion adapter

Shallow embedding of `packages/ai-adapter` (types.ts, providers/base.ts,
providers/openai.ts, providers/anthropic.ts, providers/google.ts, index.ts)
into Lean 4, together with proofs and refutations of the spec's claims
about the adapter.

Conventions used throughout the embedding:
* JS `number` values holding millisecond timestamps or token counts are
  modelled as `Int` (they are integers in every code path of the source);
  JS `number` values that are genuinely fractional (`Date.now()/1000`,
  embedding vector components) are modelled as `ℚ`, exact up to the
  double-rounding of the runtime, which no claim depends on.
* TS optional fields become `Option`; TS union-with-`null` becomes `Option`.
* Thrown exceptions become `Except` results; an operation's side effects on
  the rate limiter are recorded as explicit event traces.
-/

deriving instance DecidableEq for Except

/-- `AIProvider` from types.ts: `'openai' | 'anthropic' | 'google' | 'custom'`. -/
inductive AIProvider
  | openai
  | anthropic
  | google
  | custom
deriving DecidableEq, Repr

/-- The TS string literal for a provider tag (used in error messages). -/
def providerTag : AIProvider → String
  | .openai => "openai"
  | .anthropic => "anthropic"
  | .google => "google"
  | .custom => "custom"

/-- Message roles from `AIMessage.role` in types.ts. -/
inductive Role
  | system
  | user
  | assistant
  | function
  | tool
deriving DecidableEq, Repr

/-- `AIContent` from types.ts: either a plain string or an array of typed
parts (text / image / tool_use / tool_result).  The typed-part case is
represented by its `JSON.stringify` image (a platform builtin, external to
the repository): the adapter code consumes typed content only through
`JSON.stringify` in the utilities the claims are about. -/
inductive AIContent
  | str (s : String)
  | parts (serialized : String)
deriving DecidableEq, Repr

/-- The string the adapter derives from a content value:
`typeof content === 'string' ? content : JSON.stringify(content)`. -/
def contentString : AIContent → String
  | .str s => s
  | .parts j => j

/-- `function_call` descriptor from types.ts. -/
structure FunctionCall where
  name : String
  arguments : String
deriving DecidableEq, Repr

/-- One entry of `tool_calls` from types.ts (its `type` field is the
constant `'function'` and is omitted). -/
structure ToolCall where
  id : String
  function : FunctionCall
deriving DecidableEq, Repr

/-- `AIMessage` from types.ts. -/
structure AIMessage where
  role : Role
  content : AIContent
  name : Option String
  function_call : Option FunctionCall
  tool_calls : Option (List ToolCall)
deriving DecidableEq, Repr

/-- Builds a plain text message with no optional fields, as
`AIAdapter.createTextMessage` does. -/
def createTextMessage (role : Role) (text : String) : AIMessage :=
  ⟨role, .str text, none, none, none⟩

/-- `AIError` from types.ts: the normalized error shape every provider
produces via `BaseAIProvider.createError`. -/
inductive AIErrorType
  | rate_limit
  | invalid_request
  | authentication
  | server_error
  | timeout
deriving DecidableEq, Repr

/-- `AIError` (types.ts): provider tag, message, optional status code,
`retryable` flag and optional `type` classification. -/
structure AIError where
  provider : AIProvider
  message : String
  statusCode : Option Int
  retryable : Bool
  type : Option AIErrorType
deriving DecidableEq, Repr

/-- `AIChoice.finishReason` enum (without the `null` case, which is
`Option.none`). -/
inductive FinishReason
  | stop
  | length
  | tool_calls
  | content_filter
deriving DecidableEq, Repr

/-- `AIChoice` from types.ts (the `logprobs` passthrough is omitted: no
claim and no adapter logic reads it). -/
structure AIChoice where
  index : Nat
  message : AIMessage
  finishReason : Option FinishReason
deriving DecidableEq, Repr

/-- `usage` triple of `AICompletionResponse`. -/
structure AIUsage where
  promptTokens : Nat
  completionTokens : Nat
  totalTokens : Nat
deriving DecidableEq, Repr

/-- `AICompletionResponse` from types.ts. -/
structure AICompletionResponse where
  id : String
  object : String
  created : ℚ
  model : String
  choices : List AIChoice
  usage : Option AIUsage
deriving DecidableEq, Repr

/-- The `delta : Partial<AIMessage>` of a stream-chunk choice.  Only the
fields any provider's stream path ever writes (`role`, `content`,
`function_call`, `tool_calls`) are modelled. -/
structure AIStreamDelta where
  role : Option Role
  content : Option String
  function_call : Option FunctionCall
  tool_calls : Option (List ToolCall)
deriving DecidableEq, Repr

/-- The all-absent delta `{}`. -/
def emptyDelta : AIStreamDelta := ⟨none, none, none, none⟩

/-- One choice of `AIStreamChunk` (types.ts); `finishReason` there is
`string | null`. -/
structure AIStreamChoice where
  index : Nat
  delta : AIStreamDelta
  finishReason : Option String
deriving DecidableEq, Repr

/-- `AIStreamChunk` from types.ts. -/
structure AIStreamChunk where
  id : String
  object : String
  created : ℚ
  model : String
  choices : List AIStreamChoice
deriving DecidableEq, Repr

/-- One element of `AIEmbeddingResponse.data`; the vector components are
JS floats, modelled as `ℚ`. -/
structure AIEmbeddingItem where
  object : String
  index : Nat
  embedding : List ℚ
deriving DecidableEq, Repr

/-- `AIEmbeddingResponse` from types.ts (usage flattened). -/
structure AIEmbeddingResponse where
  object : String
  data : List AIEmbeddingItem
  model : String
  promptTokens : Nat
  totalTokens : Nat
deriving DecidableEq, Repr

/-- `RateLimitConfig` from types.ts.  `maxRequestsPerMinute` is compared
with a list length, hence `Nat`; the other two caps are compared with
`Int` quantities. -/
structure RateLimitConfig where
  maxRequestsPerMinute : Nat
  maxTokensPerMinute : Int
  maxConcurrent : Int
deriving DecidableEq, Repr

/-- The mutable state of the `RateLimiter` class in providers/base.ts:
`requests` (millisecond timestamps), `tokens` (token-count samples) and
the in-flight counter `concurrent`. -/
structure RateLimiterState where
  requests : List Int
  tokens : List Int
  concurrent : Int
deriving DecidableEq, Repr

/-- The fresh state a `RateLimiter` is constructed with. -/
def RateLimiterState.initial : RateLimiterState := ⟨[], [], 0⟩

/-- The window cleaning performed in `acquire`:
`this.requests = this.requests.filter(t => t > minuteAgo)` and the same
for `this.tokens`, with `minuteAgo = now - 60000`.  Note that the source
filters the token **samples** with the same timestamp predicate — this
is preserved verbatim. -/
def cleanState (now : Int) (s : RateLimiterState) : RateLimiterState :=
  { requests := s.requests.filter (fun t => t > now - 60000)
    tokens := s.tokens.filter (fun t => t > now - 60000)
    concurrent := s.concurrent }

/-- The `while` condition of `RateLimiter.acquire`:
`requests.length >= maxRequestsPerMinute || tokens.sum + estimatedTokens >
maxTokensPerMinute || concurrent >= maxConcurrent`. -/
def overLimit (cfg : RateLimitConfig) (est : Int) (s : RateLimiterState) : Prop :=
  cfg.maxRequestsPerMinute ≤ s.requests.length ∨
  cfg.maxTokensPerMinute < s.tokens.sum + est ∨
  cfg.maxConcurrent ≤ s.concurrent

instance (cfg : RateLimitConfig) (est : Int) (s : RateLimiterState) :
    Decidable (overLimit cfg est s) := by
  unfold overLimit; infer_instance

/-- The waiting loop of `RateLimiter.acquire`: while over a limit, sleep
1000 ms and re-clean the windows at the new current time, then re-check.
`fuel` bounds the number of sleeps (the JS loop is unbounded; every claim
is settled on runs where it terminates).  Returns the admission time and
the state as cleaned at that moment. -/
def RateLimiter.acquireLoop (cfg : RateLimitConfig) (est : Int) :
    Nat → RateLimiterState → Int → Option (Int × RateLimiterState)
  | fuel, s, t =>
    if overLimit cfg est s then
      match fuel with
      | 0 => none
      | fuel + 1 => RateLimiter.acquireLoop cfg est fuel (cleanState (t + 1000) s) (t + 1000)
    else
      some (t, s)

/-- `RateLimiter.acquire(estimatedTokens)` entered at wall-clock time `t0`:
clean both windows at `t0`, wait while over a limit, then record admission.
The source pushes the **outer** `now` captured at entry
(`this.requests.push(now)`) — the `const now` re-declared inside the wait
loop is block-scoped and does not update it — so the recorded timestamp is
`t0`, not the admission time.  This stale push is preserved verbatim. -/
def RateLimiter.acquire (cfg : RateLimitConfig) (fuel : Nat)
    (s : RateLimiterState) (t0 : Int) (est : Int) :
    Option (Int × RateLimiterState) :=
  match RateLimiter.acquireLoop cfg est fuel (cleanState t0 s) t0 with
  | none => none
  | some (tAdmit, s') =>
      some (tAdmit,
        { requests := s'.requests ++ [t0]
          tokens := if est > 0 then s'.tokens ++ [est] else s'.tokens
          concurrent := s'.concurrent + 1 })

/-- `RateLimiter.release()`: decrements the in-flight counter. -/
def RateLimiter.release (s : RateLimiterState) : RateLimiterState :=
  { s with concurrent := s.concurrent - 1 }

/-- `AIAdapter.countTokens`: `Math.ceil(text.length / 3.7)`, modelled as
the exact rational ceiling `⌈10·len/37⌉` (for every length the JS double
computation rounds to the same integer). -/
def AIAdapter.countTokens (text : String) : Nat :=
  (10 * text.length + 36) / 37

/-- Token estimate of one message: `countTokens` of its content string. -/
def messageTokens (m : AIMessage) : Nat :=
  AIAdapter.countTokens (contentString m.content)

/-- Total token estimate of a message list. -/
def tokenSum (l : List AIMessage) : Nat :=
  (l.map messageTokens).sum

/-- The backwards walk of `AIAdapter.truncateMessages`: the source
iterates `i` from the end of the array down to 0, skipping system
messages when `keepSystemMessage` is set, breaking at the first message
that would push the running total over `maxTokens`, and `unshift`ing each
kept message.  Here the input list is the reversed message list, and the
output collects the kept messages in visit order (i.e. reversed). -/
def truncateFromEnd (keepSystemMessage : Bool) (maxTokens : Nat) :
    List AIMessage → Nat → List AIMessage
  | [], _ => []
  | m :: rest, total =>
    if keepSystemMessage && m.role == .system then
      truncateFromEnd keepSystemMessage maxTokens rest total
    else if total + messageTokens m > maxTokens then
      []
    else
      m :: truncateFromEnd keepSystemMessage maxTokens rest (total + messageTokens m)

/-- `AIAdapter.truncateMessages(messages, maxTokens = 4000,
keepSystemMessage = true)`: optionally pre-seeds the result with the
first system message (counting its tokens into the running total), then
keeps messages from the end while they fit.  `unshift` places each kept
message in front of the previously kept ones, so the final array is the
kept suffix in original order followed by the system message. -/
def AIAdapter.truncateMessages (messages : List AIMessage) (maxTokens : Nat)
    (keepSystemMessage : Bool) : List AIMessage :=
  let seed : List AIMessage × Nat :=
    if keepSystemMessage then
      match messages.find? (fun m => m.role == .system) with
      | some sys => ([sys], messageTokens sys)
      | none => ([], 0)
    else ([], 0)
  let kept := truncateFromEnd keepSystemMessage maxTokens messages.reverse seed.2
  kept.reverse ++ seed.1

example :
    AIAdapter.truncateMessages
      [createTextMessage .system "be nice", createTextMessage .user "hello there",
       createTextMessage .assistant "hi", createTextMessage .user "bye"]
      4 true
    = [createTextMessage .assistant "hi", createTextMessage .user "bye",
       createTextMessage .system "be nice"] := by decide

example : AIAdapter.countTokens "hello world" = 3 := by decide

/-- Errors crossing the Facade boundary: either a normalized `AIError`
thrown by a provider, or a plain `new Error(message)` thrown by the
adapter itself. -/
inductive FacadeError
  | ai (e : AIError)
  | generic (message : String)
deriving DecidableEq, Repr

/-- `true` iff a `FacadeError` is a normalized, typed `AIError` (as
opposed to a plain `Error`). -/
def FacadeError.isNormalized : FacadeError → Bool
  | .ai _ => true
  | .generic _ => false

/-- The fail-fast test of `AIAdapter.complete` / `AIAdapter.stream`:
`aiError.retryable === false && aiError.type !== 'rate_limit'`. -/
def shouldFailFast (e : AIError) : Bool :=
  e.retryable == false && e.type != some .rate_limit

/-- The provider loop of `AIAdapter.complete` over the order
`[currentProvider, ...fallbackProviders]`.  `behav p` is the outcome of
`provider.complete(options)` for provider `p` (providers always throw
normalized `AIError`s, built by `handleError`).  Returns the list of
providers called, in call order, together with the final outcome.  The
source's `if (!provider) continue` guard is dead code — every tag in the
order list was put into the provider map by the constructor — and is not
modelled. -/
def AIAdapter.completeLoop (behav : AIProvider → Except AIError AICompletionResponse) :
    List AIProvider → Option AIError →
    List AIProvider × Except FacadeError AICompletionResponse
  | [], lastError =>
      ([], .error (match lastError with
        | some e => .ai e
        | none => .generic "All providers failed"))
  | p :: rest, lastError =>
      match behav p with
      | .ok r => ([p], .ok r)
      | .error e =>
          if shouldFailFast e then
            ([p], .error (.ai e))
          else
            let next := AIAdapter.completeLoop behav rest (some e)
            (p :: next.1, next.2)

/-- `AIAdapter.complete`: try `currentProvider` first, then the fallback
providers in order. -/
def AIAdapter.complete (behav : AIProvider → Except AIError AICompletionResponse)
    (currentProvider : AIProvider) (fallbackProviders : List AIProvider) :
    List AIProvider × Except FacadeError AICompletionResponse :=
  AIAdapter.completeLoop behav (currentProvider :: fallbackProviders) none

/-- The observable outcome of one provider's `stream(options)` generator:
the chunks it yields, in order, followed by an optional terminal
normalized error (`none` = the generator finished normally). -/
def StreamOutcome := List AIStreamChunk × Option AIError

/-- The provider loop of `AIAdapter.stream`.  `yield* provider.stream(...)`
forwards every chunk the provider produces to the consumer; if the
delegated generator then throws, the `catch` decides between fail-fast and
falling through to the next provider.  Chunks already forwarded stay
delivered, so on a retryable mid-stream failure the consumer receives the
failed provider's chunks followed by the next provider's chunks.  Returns
the full chunk sequence the consumer observes and the terminal error, if
any. -/
def AIAdapter.streamLoop (behav : AIProvider → List AIStreamChunk × Option AIError) :
    List AIProvider → Option AIError →
    List AIStreamChunk × Option FacadeError
  | [], lastError =>
      ([], some (match lastError with
        | some e => .ai e
        | none => .generic "All providers failed to stream"))
  | p :: rest, lastError =>
      match behav p with
      | (chunks, none) => (chunks, none)
      | (chunks, some e) =>
          if shouldFailFast e then
            (chunks, some (.ai e))
          else
            let next := AIAdapter.streamLoop behav rest (some e)
            (chunks ++ next.1, next.2)

/-- `AIAdapter.stream`: same provider order as `complete`. -/
def AIAdapter.stream (behav : AIProvider → List AIStreamChunk × Option AIError)
    (currentProvider : AIProvider) (fallbackProviders : List AIProvider) :
    List AIStreamChunk × Option FacadeError :=
  AIAdapter.streamLoop behav (currentProvider :: fallbackProviders) none

/-- The static capability list of `AIAdapter.embed`:
`const embeddingProviders = ['openai', 'google']`. -/
def embeddingProviders : List AIProvider := [.openai, .google]

/-- The provider loop of `AIAdapter.embed`: on any error it falls through
to the next available provider, rethrowing only when the failing provider
is the **last** available one (`providerName ===
availableProviders[availableProviders.length - 1]`). -/
def AIAdapter.embedLoop (behav : AIProvider → Except FacadeError AIEmbeddingResponse)
    (lastAvailable : Option AIProvider) :
    List AIProvider → List AIProvider × Except FacadeError AIEmbeddingResponse
  | [] => ([], .error (.generic "No embedding providers available"))
  | p :: rest =>
      match behav p with
      | .ok r => ([p], .ok r)
      | .error e =>
          if some p = lastAvailable then
            ([p], .error e)
          else
            let next := AIAdapter.embedLoop behav lastAvailable rest
            (p :: next.1, next.2)

/-- `AIAdapter.embed`: filters the **static** capability list by the
configured provider set (not the configured priority order), then walks
it.  `behav p` is the outcome of `provider.embed(options)`; Anthropic's
`embed` throws a plain `Error`, hence the `FacadeError` codomain. -/
def AIAdapter.embed (configured : List AIProvider)
    (behav : AIProvider → Except FacadeError AIEmbeddingResponse) :
    List AIProvider × Except FacadeError AIEmbeddingResponse :=
  let available := embeddingProviders.filter (fun p => configured.contains p)
  AIAdapter.embedLoop behav available.getLast? available

/-- The provider-selection state of `AIAdapter` (index.ts): the keys of
the provider map, the current provider and the fallback list. -/
structure AIAdapterState where
  providers : List AIProvider
  currentProvider : AIProvider
  fallbackProviders : List AIProvider
deriving DecidableEq, Repr

/-- `AIAdapter.setProvider(provider)`: throws when the tag is not a key of
the provider map, otherwise reassigns `currentProvider` (the fallback list
is never touched). -/
def AIAdapter.setProvider (s : AIAdapterState) (p : AIProvider) :
    Except String AIAdapterState :=
  if s.providers.contains p then
    .ok { s with currentProvider := p }
  else
    .error ("Provider " ++ providerTag p ++ " not configured")

/-- The adapter state after a `setProvider` call: a thrown error leaves
every field untouched, because the throw precedes the assignment. -/
def stateAfterSetProvider (s : AIAdapterState) (p : AIProvider) : AIAdapterState :=
  match AIAdapter.setProvider s p with
  | .ok s' => s'
  | .error _ => s

/-- Control-flow events of one provider operation, as seen by the rate
limiter and the vendor: an `acquire`, the vendor call, yielded chunks, and
the `release` in the `finally` block. -/
inductive OpEvent
  | acq
  | callVendor
  | yld (c : AIStreamChunk)
  | rel
deriving DecidableEq, Repr

/-- Event trace of `OpenAIProvider.complete` / `AnthropicProvider.complete`
/ `GoogleProvider.complete` (identical `try { acquire; call } catch
{ throw handleError } finally { release }` structure): the `finally`
releases on the success path and on the error path alike. -/
def providerCompleteEvents (vendorResult : Except AIError AICompletionResponse) :
    List OpEvent :=
  match vendorResult with
  | .ok _ => [.acq, .callVendor, .rel]
  | .error _ => [.acq, .callVendor, .rel]

/-- How far the consumer drives a provider stream: `none` = consume to the
end; `some k` = abandon (break out of `for await`) after pulling `k`
chunks, which runs the generator's `finally` via `gen.return()`. -/
def ConsumerPlan := Option Nat

/-- Event trace of `OpenAIProvider.stream` (and the identically structured
Anthropic/Google stream bodies) against a vendor stream that yields
`chunks` and then either ends (`verr = none`) or raises: the generator
body — and with it the `acquire` — does not run at all until the consumer
pulls the first chunk; once running, the `finally` fires `release` exactly
once on normal exhaustion, on a vendor error, and on consumer abandonment
alike. -/
def providerStreamEvents (chunks : List AIStreamChunk) (verr : Option AIError)
    (consumed : Option Nat) : List OpEvent :=
  match consumed with
  | some 0 => []
  | some (k + 1) =>
      if k + 1 ≤ chunks.length then
        .acq :: .callVendor :: ((chunks.take (k + 1)).map .yld) ++ [.rel]
      else
        .acq :: .callVendor :: (chunks.map .yld) ++ [.rel]
  | none =>
      match verr with
      | none => .acq :: .callVendor :: (chunks.map .yld) ++ [.rel]
      | some _ => .acq :: .callVendor :: (chunks.map .yld) ++ [.rel]

/-- Event trace of `OpenAIProvider.embed` / `GoogleProvider.embed`: the
vendor call is issued directly — there is no `rateLimiter.acquire()` and
no `release()` anywhere in either method. -/
def providerEmbedEvents (vendorResult : Except AIError AIEmbeddingResponse) :
    List OpEvent :=
  match vendorResult with
  | .ok _ => [.callVendor]
  | .error _ => [.callVendor]

/-! ## Concrete sample values used by counterexamples and witnesses -/

/-- A normalized 429 error, as `OpenAIProvider.handleError` builds it:
`rate_limit`, retryable. -/
def rateLimitErr : AIError :=
  ⟨.openai, "Rate limit exceeded", some 429, true, some .rate_limit⟩

/-- A normalized 401 error, as `OpenAIProvider.handleError` builds it:
`authentication`, not retryable. -/
def authErr : AIError :=
  ⟨.openai, "Incorrect API key", some 401, false, some .authentication⟩

/-- A normalized 500 error: `server_error`, retryable. -/
def serverErr : AIError :=
  ⟨.openai, "Internal server error", some 500, true, some .server_error⟩

/-- A sample successful completion response. -/
def sampleResponse : AICompletionResponse :=
  ⟨"chatcmpl-1", "chat.completion", 1, "gpt-4o",
   [⟨0, ⟨.assistant, .str "ok", none, none, none⟩, some .stop⟩],
   some ⟨5, 1, 6⟩⟩

/-- A sample successful embedding response. -/
def embedOkResp : AIEmbeddingResponse :=
  ⟨"list", [⟨"embedding", 0, [1, 0]⟩], "text-embedding-3-small", 2, 2⟩

/-- A sample mid-stream chunk as `OpenAIProvider.convertStreamChunk`
shapes it. -/
def oaChunk : AIStreamChunk :=
  ⟨"chatcmpl-1", "chat.completion.chunk", 1, "gpt-4o",
   [⟨0, ⟨none, some "Hel", none, none⟩, none⟩]⟩

/-- A sample chunk from the Anthropic provider's stream. -/
def anChunk : AIStreamChunk :=
  ⟨"anthropic-2", "chat.completion.chunk", 2, "claude-3-5-sonnet-20241022",
   [⟨0, ⟨none, some "Hi", none, none⟩, none⟩]⟩

/-- Stream behaviour for the mid-stream-failure scenario: the primary
(openai) yields one chunk and then raises a retryable server error; the
fallback (anthropic) streams normally. -/
def midStreamBehav : AIProvider → List AIStreamChunk × Option AIError
  | .openai => ([oaChunk], some serverErr)
  | .anthropic => ([anChunk], none)
  | _ => ([], none)

/-! ## C1 — mid-stream fallback -/

/-- **C1** (code bug, evaluated at the failing input): Facade configured
`[openai, anthropic]`; openai's stream yields one chunk and then fails
with a retryable error.  `AIAdapter.stream` delivers openai's chunk **and
then anthropic's chunk** and terminates without any error: the mid-stream
failure after the first yielded chunk does not surface as a terminal
error, and the Facade switches to a different provider after the first
chunk has been emitted — contradicting the claim. -/
theorem stream_midstream_restart_bug :
    AIAdapter.stream midStreamBehav .openai [.anthropic] = ([oaChunk, anChunk], none) ∧
    (midStreamBehav .openai).1 ≠ [] ∧
    (midStreamBehav .openai).2 = some serverErr ∧
    shouldFailFast serverErr = false := by
  decide

/-! ## C3 — rate limiter window bug -/

/-- **C3** (code bug, evaluated at the failing input): with a cap of one
request per minute, an `acquire` entered at t=1 ms waits until t=60001 ms
and is admitted then, but records the stale entry timestamp 1 — not the
admission time 60001 — into the request window (`this.requests.push(now)`
pushes the outer `now`).  The stale entry leaves the 60-second window
immediately, so a third `acquire` at t=61005 ms is admitted at once:
two admissions (60001 and 61005) fall inside the trailing 60-second window
ending at 61005, exceeding the cap of 1. -/
theorem rateLimiter_stale_timestamp_bug :
    RateLimiter.acquire ⟨1, 1000000, 50⟩ 100 RateLimiterState.initial 0 0
        = some (0, ⟨[0], [], 1⟩) ∧
    RateLimiter.acquire ⟨1, 1000000, 50⟩ 100 ⟨[0], [], 0⟩ 1 0
        = some (60001, ⟨[1], [], 1⟩) ∧
    RateLimiter.acquire ⟨1, 1000000, 50⟩ 100 ⟨[1], [], 0⟩ 61005 0
        = some (61005, ⟨[61005], [], 1⟩) ∧
    ((1 : Int) ≠ 60001 ∧ (61005 : Int) - 60000 < 60001 ∧
      1 < (RateLimitConfig.mk 1 1000000 50).maxRequestsPerMinute + 1) := by
  decide

/-! ## C4 — acquire/release balance -/

/-- `OpEvent.yld` images never count as another event kind. -/
lemma count_map_yld (a : OpEvent) (l : List AIStreamChunk)
    (h : ∀ c, OpEvent.yld c ≠ a) : (l.map OpEvent.yld).count a = 0 := by
  rw [List.count_eq_zero]
  intro hmem
  rcases List.mem_map.mp hmem with ⟨c, _, hc⟩
  exact h c hc

/-- **C4**: in every provider `complete` run and every provider `stream`
run — normal completion, vendor error, and consumer abandonment before
exhaustion alike — the number of `release`s equals the number of
`acquire`s, and there is at most one of each: every acquire is matched by
exactly one release. -/
theorem acquire_release_balanced
    (v : Except AIError AICompletionResponse)
    (chunks : List AIStreamChunk) (verr : Option AIError) (consumed : Option Nat) :
    ((providerCompleteEvents v).count .acq = (providerCompleteEvents v).count .rel ∧
      (providerCompleteEvents v).count .acq ≤ 1) ∧
    ((providerStreamEvents chunks verr consumed).count .acq
        = (providerStreamEvents chunks verr consumed).count .rel ∧
      (providerStreamEvents chunks verr consumed).count .acq ≤ 1) := by
  constructor
  · cases v <;> simp [providerCompleteEvents, List.count_cons]
  · have hacq : ∀ l : List AIStreamChunk, (l.map OpEvent.yld).count OpEvent.acq = 0 :=
      fun l => count_map_yld _ l (fun c => by simp)
    have hrel : ∀ l : List AIStreamChunk, (l.map OpEvent.yld).count OpEvent.rel = 0 :=
      fun l => count_map_yld _ l (fun c => by simp)
    have hacqT : ∀ (n : Nat) (l : List AIStreamChunk),
        ((l.map OpEvent.yld).take n).count OpEvent.acq = 0 := by
      intro n l
      rw [← List.map_take]
      exact count_map_yld _ _ (fun c => by simp)
    have hrelT : ∀ (n : Nat) (l : List AIStreamChunk),
        ((l.map OpEvent.yld).take n).count OpEvent.rel = 0 := by
      intro n l
      rw [← List.map_take]
      exact count_map_yld _ _ (fun c => by simp)
    rcases consumed with _ | k
    · rcases verr with _ | e <;>
        simp [providerStreamEvents, List.count_cons, List.count_append, hacq, hrel]
    · rcases k with _ | k
      · simp [providerStreamEvents]
      · by_cases hk : k + 1 ≤ chunks.length <;>
          simp [providerStreamEvents, hk, List.count_cons, List.count_append, hacq, hrel,
            hacqT, hrelT]

/-! ## C6 — embed with only the embedding-less vendor -/

/-- Embed behaviour that succeeds everywhere (irrelevant for C6: no
provider is ever attempted). -/
def anyEmbedBehav : AIProvider → Except FacadeError AIEmbeddingResponse :=
  fun _ => .ok embedOkResp

/-- Whether an embed outcome failed with a normalized, typed error. -/
def failedNormalized : Except FacadeError AIEmbeddingResponse → Bool
  | .error e => e.isNormalized
  | .ok _ => false

/-- **C6** (counterexample): with only `anthropic` configured,
`AIAdapter.embed` attempts no provider at all and throws the plain
`new Error('No embedding providers available')` — a generic error, not a
normalized error carrying an unsupported-operation classification (no
such classification even exists in the error taxonomy of types.ts). -/
theorem embed_unsupported_counterexample :
    AIAdapter.embed [.anthropic] anyEmbedBehav
        = ([], .error (.generic "No embedding providers available")) ∧
    failedNormalized (AIAdapter.embed [.anthropic] anyEmbedBehav).2 = false := by
  decide

/-- **C6** (amended): calling `embed` on a Facade configured only with
`anthropic` (the vendor without an embedding endpoint) throws the generic
`Error('No embedding providers available')` without attempting any
provider, for every possible provider behaviour. -/
theorem embed_unsupported_generic_error
    (behav : AIProvider → Except FacadeError AIEmbeddingResponse) :
    AIAdapter.embed [.anthropic] behav
        = ([], .error (.generic "No embedding providers available")) := by
  rfl

/-! ## C7 — embed provider order and fallback rule -/

/-- Embed behaviour used against the claim: openai fails with a
non-retryable authentication error, google succeeds. -/
def embedAuthBehav : AIProvider → Except FacadeError AIEmbeddingResponse
  | .openai => .error (.ai authErr)
  | .google => .ok embedOkResp
  | _ => .error (.generic "unreachable")

/-- **C7** (counterexample): Facade configured `[google, openai]` — google
is the primary.  `AIAdapter.embed` nevertheless attempts openai first
(the static capability list order, not the configured priority order),
and openai's non-retryable, non-rate-limit authentication error does not
propagate immediately: google is attempted next and its response is
returned. -/
theorem embed_order_counterexample :
    AIAdapter.embed [.google, .openai] embedAuthBehav
        = ([.openai, .google], .ok embedOkResp) ∧
    shouldFailFast authErr = true := by
  decide

/-- The providers `embedLoop` attempts form a prefix of the available
list: attempts happen in the list's order, stopping at the first success
or at the last available provider. -/
lemma embedLoop_trace_pre (behav : AIProvider → Except FacadeError AIEmbeddingResponse)
    (lastAvailable : Option AIProvider) :
    ∀ l : List AIProvider, (AIAdapter.embedLoop behav lastAvailable l).1 <+: l := by
  intro l
  induction l with
  | nil => simp [AIAdapter.embedLoop]
  | cons p rest ih =>
    unfold AIAdapter.embedLoop
    cases hb : behav p with
    | ok r => exact ⟨rest, rfl⟩
    | error e =>
      dsimp only
      by_cases hl : some p = lastAvailable
      · rw [if_pos hl]
        exact ⟨rest, rfl⟩
      · rw [if_neg hl]
        obtain ⟨u, hu⟩ := ih
        exact ⟨u, by simp [hu]⟩

/-- **C7** (amended): `AIAdapter.embed` attempts only embedding-capable
configured providers, but in the **static** capability order
`[openai, google]` (a prefix of the filtered static list), not in the
configured priority order; and it falls back on **any** error — even a
non-retryable, non-rate-limit one — propagating only the last available
provider's error. -/
theorem embed_static_order_any_error_fallback
    (configured : List AIProvider)
    (behav : AIProvider → Except FacadeError AIEmbeddingResponse) :
    (AIAdapter.embed configured behav).1 <+:
        embeddingProviders.filter (fun p => configured.contains p) ∧
    (∀ e r, behav .openai = .error e → behav .google = .ok r →
      AIAdapter.embed [.google, .openai] behav = ([.openai, .google], .ok r)) ∧
    (∀ e₁ e₂, behav .openai = .error e₁ → behav .google = .error e₂ →
      AIAdapter.embed [.google, .openai] behav = ([.openai, .google], .error e₂)) := by
  refine ⟨embedLoop_trace_pre behav _ _, ?_, ?_⟩
  · intro e r h1 h2
    show AIAdapter.embedLoop behav (some .google) [.openai, .google]
        = ([.openai, .google], .ok r)
    unfold AIAdapter.embedLoop
    rw [h1]
    dsimp only
    rw [if_neg (by decide : ¬ (some AIProvider.openai = some AIProvider.google))]
    unfold AIAdapter.embedLoop
    rw [h2]
  · intro e₁ e₂ h1 h2
    show AIAdapter.embedLoop behav (some .google) [.openai, .google]
        = ([.openai, .google], .error e₂)
    unfold AIAdapter.embedLoop
    rw [h1]
    dsimp only
    rw [if_neg (by decide : ¬ (some AIProvider.openai = some AIProvider.google))]
    unfold AIAdapter.embedLoop
    rw [h2]
    dsimp only
    rw [if_pos rfl]

/-- Witness for the amended C7 theorem at a concrete input. -/
theorem embed_static_order_any_error_fallback_witness :
    (AIAdapter.embed [.google, .openai] embedAuthBehav).1 <+: [.openai, .google] ∧
    AIAdapter.embed [.google, .openai] embedAuthBehav
        = ([.openai, .google], .ok embedOkResp) := by
  have h := embed_static_order_any_error_fallback [.google, .openai] embedAuthBehav
  exact ⟨h.1, h.2.1 (.ai authErr) embedOkResp rfl rfl⟩

/-! ## C2 — complete fallback policy -/

/-- Every `completeLoop` run over a nonempty provider list calls the head
provider first. -/
lemma completeLoop_trace_head (behav : AIProvider → Except AIError AICompletionResponse)
    (b : AIProvider) (rest : List AIProvider) (lastError : Option AIError) :
    (AIAdapter.completeLoop behav (b :: rest) lastError).1.take 1 = [b] := by
  unfold AIAdapter.completeLoop
  cases hb : behav b with
  | ok r => rfl
  | error e =>
    by_cases hf : shouldFailFast e
    · simp [hf]
    · simp [hf]

/-- **C2**: if the first provider's `complete` raises a normalized error
that is retryable or classified rate-limit, `AIAdapter.complete` calls
the second configured provider next, the first having been called exactly
once before it (the call trace begins `[A, B]`); if the error is neither
retryable nor rate-limit (e.g. an authentication failure), the error
propagates immediately and no further provider is called. -/
theorem complete_fallback_policy
    (A B : AIProvider) (rest : List AIProvider)
    (behav : AIProvider → Except AIError AICompletionResponse)
    (e : AIError) (hA : behav A = .error e) :
    (shouldFailFast e = false →
      (AIAdapter.complete behav A (B :: rest)).1.take 2 = [A, B]) ∧
    (shouldFailFast e = true →
      AIAdapter.complete behav A (B :: rest) = ([A], .error (.ai e))) := by
  constructor
  · intro hff
    show (AIAdapter.completeLoop behav (A :: B :: rest) none).1.take 2 = [A, B]
    unfold AIAdapter.completeLoop
    rw [hA]
    simp only [hff, Bool.false_eq_true, if_false]
    have := completeLoop_trace_head behav B rest (some e)
    simp [List.take_succ_cons, this]
  · intro hff
    show AIAdapter.completeLoop behav (A :: B :: rest) none = ([A], .error (.ai e))
    unfold AIAdapter.completeLoop
    rw [hA]
    simp [hff]

/-- Behaviour where the primary rate-limits and every other provider
succeeds. -/
def c2RetryBehav : AIProvider → Except AIError AICompletionResponse
  | .openai => .error rateLimitErr
  | _ => .ok sampleResponse

/-- Behaviour where the primary fails authentication and every other
provider succeeds. -/
def c2AuthBehav : AIProvider → Except AIError AICompletionResponse
  | .openai => .error authErr
  | _ => .ok sampleResponse

/-- Witness for C2 at concrete inputs: a 429 from the primary leads to the
fallback being called next; a 401 propagates with no second call. -/
theorem complete_fallback_policy_witness :
    shouldFailFast rateLimitErr = false ∧
    (AIAdapter.complete c2RetryBehav .openai [.anthropic]).1.take 2
        = [.openai, .anthropic] ∧
    shouldFailFast authErr = true ∧
    AIAdapter.complete c2AuthBehav .openai [.anthropic]
        = ([.openai], .error (.ai authErr)) := by
  refine ⟨by decide, ?_, by decide, ?_⟩
  · exact (complete_fallback_policy .openai .anthropic [] c2RetryBehav rateLimitErr rfl).1
      (by decide)
  · exact (complete_fallback_policy .openai .anthropic [] c2AuthBehav authErr rfl).2
      (by decide)

/-! ## C10 — setProvider with an unknown tag -/

/-- **C10**: `AIAdapter.setProvider` with a tag that is not configured
throws `Provider ... not configured` and leaves the adapter state — the
current provider and the fallback list — unchanged, so any subsequent
`complete` behaves exactly as before the failed call. -/
theorem setProvider_unknown_tag (s : AIAdapterState) (p : AIProvider)
    (h : s.providers.contains p = false) :
    AIAdapter.setProvider s p
        = .error ("Provider " ++ providerTag p ++ " not configured") ∧
    stateAfterSetProvider s p = s ∧
    (∀ behav, AIAdapter.complete behav (stateAfterSetProvider s p).currentProvider
        (stateAfterSetProvider s p).fallbackProviders
      = AIAdapter.complete behav s.currentProvider s.fallbackProviders) := by
  have hmem : p ∉ s.providers := by simpa using h
  have h1 : AIAdapter.setProvider s p
      = .error ("Provider " ++ providerTag p ++ " not configured") := by
    simp [AIAdapter.setProvider, hmem]
  have h2 : stateAfterSetProvider s p = s := by
    simp [stateAfterSetProvider, h1]
  exact ⟨h1, h2, fun behav => by rw [h2]⟩

/-- Behaviour where every provider succeeds. -/
def constOkBehav : AIProvider → Except AIError AICompletionResponse :=
  fun _ => .ok sampleResponse

/-- Witness for C10 at a concrete input: only openai configured, tag
google requested. -/
theorem setProvider_unknown_tag_witness :
    AIAdapter.setProvider ⟨[.openai], .openai, []⟩ .google
        = .error ("Provider " ++ providerTag .google ++ " not configured") ∧
    stateAfterSetProvider ⟨[.openai], .openai, []⟩ .google = ⟨[.openai], .openai, []⟩ ∧
    AIAdapter.complete constOkBehav
        (stateAfterSetProvider ⟨[.openai], .openai, []⟩ .google).currentProvider
        (stateAfterSetProvider ⟨[.openai], .openai, []⟩ .google).fallbackProviders
      = AIAdapter.complete constOkBehav .openai [] := by
  have h := setProvider_unknown_tag ⟨[.openai], .openai, []⟩ .google (by decide)
  exact ⟨h.1, h.2.1, h.2.2 constOkBehav⟩

/-! ## C5 — truncateMessages -/

/-- `true` iff a message's role is not `system`. -/
def isNonSystem (m : AIMessage) : Bool := m.role != .system

/-- Token estimate of the first system message of a list (0 when there is
none): the amount `truncateMessages` counts into the running total before
walking the list. -/
def sysTokens (messages : List AIMessage) : Nat :=
  match messages.find? (fun m => m.role == Role.system) with
  | some sys => messageTokens sys
  | none => 0

lemma tokenSum_append (a b : List AIMessage) :
    tokenSum (a ++ b) = tokenSum a + tokenSum b := by
  simp [tokenSum]

lemma tokenSum_reverse (a : List AIMessage) : tokenSum a.reverse = tokenSum a := by
  simp [tokenSum, List.map_reverse, List.sum_reverse]

/-- The kept list of the backwards walk is a prefix of the non-system
messages of its input: system messages are skipped and the walk stops at
the first non-fitting message. -/
lemma truncateFromEnd_pre (N : Nat) :
    ∀ (l : List AIMessage) (t : Nat),
      truncateFromEnd true N l t <+: l.filter isNonSystem := by
  intro l
  induction l with
  | nil => intro t; exact ⟨[], rfl⟩
  | cons m rest ih =>
    intro t
    by_cases hs : m.role == Role.system
    · have hrole : m.role = Role.system := by simpa using hs
      have hskip : truncateFromEnd true N (m :: rest) t = truncateFromEnd true N rest t := by
        simp [truncateFromEnd, hs]
      have hfilter : (m :: rest).filter isNonSystem = rest.filter isNonSystem := by
        simp [List.filter_cons, isNonSystem, hrole]
      rw [hskip, hfilter]
      exact ih t
    · have hs' : (m.role == Role.system) = false := by simpa using hs
      have hrole : ¬ m.role = Role.system := by simpa using hs
      have hkeepf : (m :: rest).filter isNonSystem = m :: rest.filter isNonSystem := by
        simp [List.filter_cons, isNonSystem, hrole]
      by_cases hover : t + messageTokens m > N
      · have hbreak : truncateFromEnd true N (m :: rest) t = [] := by
          simp [truncateFromEnd, hs', hover]
        rw [hbreak]
        exact ⟨_, rfl⟩
      · have hcons : truncateFromEnd true N (m :: rest) t
            = m :: truncateFromEnd true N rest (t + messageTokens m) := by
          simp [truncateFromEnd, hs', hover]
        rw [hcons, hkeepf]
        obtain ⟨u, hu⟩ := ih (t + messageTokens m)
        exact ⟨u, by simp [hu]⟩

/-- The backwards walk never pushes the running total past the bound:
starting from `t ≤ N`, the kept messages' tokens plus `t` stay `≤ N`. -/
lemma truncateFromEnd_sum (N : Nat) :
    ∀ (l : List AIMessage) (t : Nat), t ≤ N →
      t + tokenSum (truncateFromEnd true N l t) ≤ N := by
  intro l
  induction l with
  | nil => intro t ht; simpa [truncateFromEnd, tokenSum] using ht
  | cons m rest ih =>
    intro t ht
    by_cases hs : m.role == Role.system
    · simpa [truncateFromEnd, hs] using ih t ht
    · have hs' : (m.role == Role.system) = false := by simpa using hs
      by_cases hover : t + messageTokens m > N
      · simpa [truncateFromEnd, hs', hover, tokenSum] using ht
      · have hle : t + messageTokens m ≤ N := by omega
        have hrec := ih (t + messageTokens m) hle
        have hcons : truncateFromEnd true N (m :: rest) t
            = m :: truncateFromEnd true N rest (t + messageTokens m) := by
          simp [truncateFromEnd, hs', hover]
        rw [hcons]
        simp only [tokenSum, List.map_cons, List.sum_cons] at hrec ⊢
        omega

/-- Every message the backwards walk keeps is non-system. -/
lemma truncateFromEnd_nonSystem (N : Nat) (l : List AIMessage) (t : Nat) :
    ∀ m ∈ truncateFromEnd true N l t, isNonSystem m = true := by
  intro m hm
  have hsub := (truncateFromEnd_pre N l t).sublist
  exact (List.mem_filter.mp (hsub.subset hm)).2

/-- **C5** (amended): with `keepSystem = true`, `truncateMessages` always
keeps the first system message when one is present; the remaining kept
messages form a suffix of the input's non-system messages in original
relative order; the function is deterministic; and — **provided the system
message's own token estimate does not exceed the bound** — the estimated
token sum of the whole result does not exceed `N` (when the system message
alone exceeds `N`, the result is that system message and the bound is
violated, see the counterexample). -/
theorem truncateMessages_keepSystem_spec (messages : List AIMessage) (N : Nat)
    (hsys : sysTokens messages ≤ N) :
    (∀ sys, messages.find? (fun m => m.role == Role.system) = some sys →
        sys ∈ AIAdapter.truncateMessages messages N true) ∧
    (AIAdapter.truncateMessages messages N true).filter isNonSystem <:+
        messages.filter isNonSystem ∧
    tokenSum (AIAdapter.truncateMessages messages N true) ≤ N ∧
    AIAdapter.truncateMessages messages N true
        = AIAdapter.truncateMessages messages N true := by
  cases hfind : messages.find? (fun m => m.role == Role.system) with
  | none =>
    have hresult : AIAdapter.truncateMessages messages N true
        = (truncateFromEnd true N messages.reverse 0).reverse := by
      simp [AIAdapter.truncateMessages, hfind]
    refine ⟨?_, ?_, ?_, rfl⟩
    · intro sys hs
      exact Option.noConfusion hs
    · rw [hresult]
      have hall : ∀ m ∈ (truncateFromEnd true N messages.reverse 0).reverse,
          isNonSystem m = true := by
        intro m hm
        exact truncateFromEnd_nonSystem N messages.reverse 0 m (List.mem_reverse.mp hm)
      rw [List.filter_eq_self.mpr hall]
      have hpre := truncateFromEnd_pre N messages.reverse 0
      rw [List.filter_reverse] at hpre
      obtain ⟨u, hu⟩ := hpre
      exact ⟨u.reverse, by rw [← List.reverse_append, hu, List.reverse_reverse]⟩
    · rw [hresult, tokenSum_reverse]
      have := truncateFromEnd_sum N messages.reverse 0 (Nat.zero_le N)
      omega
  | some sys =>
    have hsysrole := List.find?_some hfind
    have hresult : AIAdapter.truncateMessages messages N true
        = (truncateFromEnd true N messages.reverse (messageTokens sys)).reverse ++ [sys] := by
      simp [AIAdapter.truncateMessages, hfind]
    have hst : sysTokens messages = messageTokens sys := by simp [sysTokens, hfind]
    have hsysle : messageTokens sys ≤ N := hst ▸ hsys
    refine ⟨?_, ?_, ?_, rfl⟩
    · intro sys' hs'
      injection hs' with h'
      subst h'
      rw [hresult]
      exact List.mem_append_right _ (List.mem_singleton.mpr rfl)
    · rw [hresult, List.filter_append]
      have hrole : sys.role = Role.system := by simpa using hsysrole
      have hfsys : [sys].filter isNonSystem = [] := by
        simp [isNonSystem, hrole]
      rw [hfsys, List.append_nil]
      have hall : ∀ m ∈ (truncateFromEnd true N messages.reverse (messageTokens sys)).reverse,
          isNonSystem m = true := by
        intro m hm
        exact truncateFromEnd_nonSystem N messages.reverse (messageTokens sys) m
          (List.mem_reverse.mp hm)
      rw [List.filter_eq_self.mpr hall]
      have hpre := truncateFromEnd_pre N messages.reverse (messageTokens sys)
      rw [List.filter_reverse] at hpre
      obtain ⟨u, hu⟩ := hpre
      exact ⟨u.reverse, by rw [← List.reverse_append, hu, List.reverse_reverse]⟩
    · rw [hresult, tokenSum_append, tokenSum_reverse]
      have hsum := truncateFromEnd_sum N messages.reverse (messageTokens sys) hsysle
      have h1 : tokenSum [sys] = messageTokens sys := by simp [tokenSum]
      rw [h1]
      omega

/-- A system message whose token estimate (3) already exceeds the bound 1. -/
def oversizedSystem : AIMessage := createTextMessage .system "aaaaaaaa"

/-- **C5** (counterexample): with a system message of 3 estimated tokens
and the bound `N = 1`, `truncateMessages` still returns the system
message, so the estimated token sum of the result (3) exceeds `N` —
contradicting the claim that the whole result's token sum never exceeds
the bound. -/
theorem truncateMessages_bound_counterexample :
    AIAdapter.truncateMessages [oversizedSystem] 1 true = [oversizedSystem] ∧
    tokenSum (AIAdapter.truncateMessages [oversizedSystem] 1 true) = 3 ∧
    ¬ tokenSum (AIAdapter.truncateMessages [oversizedSystem] 1 true) ≤ 1 := by
  decide

/-- Witness for the amended C5 theorem at a concrete input. -/
theorem truncateMessages_keepSystem_spec_witness :
    createTextMessage .system "abc" ∈
        AIAdapter.truncateMessages
          [createTextMessage .system "abc", createTextMessage .user "hello"] 100 true ∧
    (AIAdapter.truncateMessages
          [createTextMessage .system "abc", createTextMessage .user "hello"] 100 true).filter
        isNonSystem <:+
      ([createTextMessage .system "abc", createTextMessage .user "hello"]).filter isNonSystem ∧
    tokenSum (AIAdapter.truncateMessages
        [createTextMessage .system "abc", createTextMessage .user "hello"] 100 true) ≤ 100 := by
  have h := truncateMessages_keepSystem_spec
    [createTextMessage .system "abc", createTextMessage .user "hello"] 100 (by decide)
  exact ⟨h.1 (createTextMessage .system "abc") rfl, h.2.1, h.2.2.1⟩

/-! ## C8 — stream chunk order and final finish reason -/

/-- The vendor streaming events `AnthropicProvider.stream` inspects: a
`content_block_delta` (carrying a `text_delta` payload, or some other
delta kind, modelled as `none`), the terminal `message_stop`, and every
other event type (`message_start`, `content_block_start`, `ping`, ...),
which the loop ignores. -/
inductive AnthropicStreamEvent
  | contentBlockDelta (index : Nat) (textDelta : Option String)
  | messageStop
  | otherEvent
deriving DecidableEq, Repr

/-- The chunk `AnthropicProvider.stream` yields for a text delta; `now`
is the `Date.now()` reading at the yield (the id and `created` both
derive from it; the two calls in the source are microseconds apart and
are modelled as one reading). -/
def anthropicTextChunk (now : Int) (model : String) (index : Nat)
    (text : String) : AIStreamChunk :=
  ⟨"anthropic-" ++ toString now, "chat.completion.chunk", (now : ℚ) / 1000, model,
   [⟨index, ⟨none, some text, none, none⟩, none⟩]⟩

/-- The chunk `AnthropicProvider.stream` yields on `message_stop`. -/
def anthropicStopChunk (now : Int) (model : String) : AIStreamChunk :=
  ⟨"anthropic-" ++ toString now, "chat.completion.chunk", (now : ℚ) / 1000, model,
   [⟨0, emptyDelta, some "stop"⟩]⟩

/-- The chunk `GoogleProvider.stream` yields for a nonempty vendor text. -/
def googleTextChunk (now : Int) (model : String) (text : String) : AIStreamChunk :=
  ⟨"gemini-" ++ toString now, "chat.completion.chunk", (now : ℚ) / 1000, model,
   [⟨0, ⟨none, some text, none, none⟩, none⟩]⟩

/-- The final chunk `GoogleProvider.stream` appends after the vendor
stream is exhausted. -/
def googleStopChunk (now : Int) (model : String) : AIStreamChunk :=
  ⟨"gemini-" ++ toString now, "chat.completion.chunk", (now : ℚ) / 1000, model,
   [⟨0, emptyDelta, some "stop"⟩]⟩

/-- The yield loop of `AnthropicProvider.stream`: text deltas become
content chunks with a null finish reason, `message_stop` becomes a chunk
with finish reason `'stop'`, everything else is skipped.  `k` counts the
yields performed so far and indexes into `times`, the successive
`Date.now()` readings. -/
def anthropicStreamGo (times : Nat → Int) (model : String) :
    Nat → List AnthropicStreamEvent → List AIStreamChunk
  | _, [] => []
  | k, .contentBlockDelta idx (some text) :: rest =>
      anthropicTextChunk (times k) model idx text ::
        anthropicStreamGo times model (k + 1) rest
  | k, .contentBlockDelta _ none :: rest => anthropicStreamGo times model k rest
  | k, .messageStop :: rest =>
      anthropicStopChunk (times k) model :: anthropicStreamGo times model (k + 1) rest
  | k, .otherEvent :: rest => anthropicStreamGo times model k rest

/-- `AnthropicProvider.stream`'s chunk sequence over a vendor event
sequence, with `model` the resolved model string
(`options.model || DEFAULT_MODELS.anthropic`). -/
def AnthropicProvider.streamChunks (times : Nat → Int) (model : String)
    (events : List AnthropicStreamEvent) : List AIStreamChunk :=
  anthropicStreamGo times model 0 events

/-- The yield loop of `GoogleProvider.stream`: each vendor chunk's text is
yielded when truthy (nonempty), with a null finish reason; after the
vendor stream ends a final chunk with finish reason `'stop'` is sent. -/
def googleStreamGo (times : Nat → Int) (model : String) :
    Nat → List String → List AIStreamChunk
  | k, [] => [googleStopChunk (times k) model]
  | k, text :: rest =>
      if text = "" then googleStreamGo times model k rest
      else googleTextChunk (times k) model text :: googleStreamGo times model (k + 1) rest

/-- `GoogleProvider.stream`'s chunk sequence over the vendor's chunk
texts, with `model` the resolved model string. -/
def GoogleProvider.streamChunks (times : Nat → Int) (model : String)
    (texts : List String) : List AIStreamChunk :=
  googleStreamGo times model 0 texts

/-- The delta content of a chunk's first choice. -/
def chunkContent (c : AIStreamChunk) : Option String :=
  c.choices.head?.bind fun ch => ch.delta.content

/-- `true` iff the chunk list is nonempty and every choice of its last
chunk carries a non-null finish reason. -/
def lastHasFinish (l : List AIStreamChunk) : Bool :=
  match l.getLast? with
  | some c => !c.choices.isEmpty && c.choices.all (fun ch => ch.finishReason.isSome)
  | none => false

/-- The text payload of an Anthropic text-delta event. -/
def anthropicEventText : AnthropicStreamEvent → Option String
  | .contentBlockDelta _ (some t) => some t
  | _ => none

lemma lastHasFinish_ne_nil (l : List AIStreamChunk) (h : lastHasFinish l = true) :
    l ≠ [] := by
  intro hl
  subst hl
  simp [lastHasFinish] at h

lemma lastHasFinish_cons_of_ne (c : AIStreamChunk) (l : List AIStreamChunk)
    (h : l ≠ []) : lastHasFinish (c :: l) = lastHasFinish l := by
  cases l with
  | nil => exact absurd rfl h
  | cons x xs =>
    unfold lastHasFinish
    rw [List.getLast?_cons_cons]

/-- The Google yield loop preserves the vendor's text order: the produced
delta contents are exactly the nonempty vendor texts, in order. -/
lemma googleGo_content (times : Nat → Int) (model : String) :
    ∀ (texts : List String) (k : Nat),
      (googleStreamGo times model k texts).filterMap chunkContent
        = texts.filter (fun t => t != "") := by
  intro texts
  induction texts with
  | nil =>
    intro k
    simp [googleStreamGo, chunkContent, googleStopChunk, emptyDelta]
  | cons t rest ih =>
    intro k
    by_cases ht : t = ""
    · simp [googleStreamGo, ht, ih k]
    · simp [googleStreamGo, ht, ih (k + 1), chunkContent, googleTextChunk]

/-- The Google yield loop always terminates the chunk sequence with the
final `'stop'` chunk. -/
lemma googleGo_last (times : Nat → Int) (model : String) :
    ∀ (texts : List String) (k : Nat),
      lastHasFinish (googleStreamGo times model k texts) = true := by
  intro texts
  induction texts with
  | nil =>
    intro k
    simp [googleStreamGo, lastHasFinish, googleStopChunk]
  | cons t rest ih =>
    intro k
    by_cases ht : t = ""
    · simpa [googleStreamGo, ht] using ih k
    · have hstep : googleStreamGo times model k (t :: rest)
          = googleTextChunk (times k) model t :: googleStreamGo times model (k + 1) rest := by
        simp [googleStreamGo, ht]
      have h2 := ih (k + 1)
      rw [hstep, lastHasFinish_cons_of_ne _ _ (lastHasFinish_ne_nil _ h2)]
      exact h2

/-- The Anthropic yield loop preserves the vendor's text order: the
produced delta contents are exactly the text-delta payloads, in order. -/
lemma anthropicGo_content (times : Nat → Int) (model : String) :
    ∀ (events : List AnthropicStreamEvent) (k : Nat),
      (anthropicStreamGo times model k events).filterMap chunkContent
        = events.filterMap anthropicEventText := by
  intro events
  induction events with
  | nil => intro k; simp [anthropicStreamGo]
  | cons e rest ih =>
    intro k
    cases e with
    | contentBlockDelta idx td =>
      cases td with
      | some s =>
        simp [anthropicStreamGo, anthropicEventText, chunkContent,
          anthropicTextChunk, ih (k + 1)]
      | none => simp [anthropicStreamGo, anthropicEventText, ih k]
    | messageStop =>
      simp [anthropicStreamGo, anthropicEventText, chunkContent,
        anthropicStopChunk, emptyDelta, ih (k + 1)]
    | otherEvent => simp [anthropicStreamGo, anthropicEventText, ih k]

/-- When the vendor event sequence terminates with `message_stop` (its
normal end per the vendor protocol), the Anthropic yield loop's last chunk
is the `'stop'` chunk. -/
lemma anthropicGo_last (times : Nat → Int) (model : String) :
    ∀ (events : List AnthropicStreamEvent) (k : Nat),
      events.getLast? = some .messageStop →
      lastHasFinish (anthropicStreamGo times model k events) = true := by
  intro events
  induction events with
  | nil => intro k h; exact Option.noConfusion h
  | cons e rest ih =>
    intro k h
    cases rest with
    | nil =>
      have he : e = .messageStop := by simpa [List.getLast?] using h
      subst he
      simp [anthropicStreamGo, lastHasFinish, anthropicStopChunk]
    | cons e2 r2 =>
      have h' : (e2 :: r2).getLast? = some .messageStop := by
        rwa [List.getLast?_cons_cons] at h
      cases e with
      | contentBlockDelta idx td =>
        cases td with
        | some s =>
          have h2 := ih (k + 1) h'
          have hstep : anthropicStreamGo times model k
              (AnthropicStreamEvent.contentBlockDelta idx (some s) :: e2 :: r2)
              = anthropicTextChunk (times k) model idx s ::
                  anthropicStreamGo times model (k + 1) (e2 :: r2) := rfl
          rw [hstep, lastHasFinish_cons_of_ne _ _ (lastHasFinish_ne_nil _ h2)]
          exact h2
        | none => exact ih k h'
      | messageStop =>
        have h2 := ih (k + 1) h'
        have hstep : anthropicStreamGo times model k
            (AnthropicStreamEvent.messageStop :: e2 :: r2)
            = anthropicStopChunk (times k) model ::
                anthropicStreamGo times model (k + 1) (e2 :: r2) := rfl
        rw [hstep, lastHasFinish_cons_of_ne _ _ (lastHasFinish_ne_nil _ h2)]
        exact h2
      | otherEvent => exact ih k h'

/-- **C8**: for both cited provider adapters the consumer observes the
vendor's payloads in exactly the vendor's order — the delta contents of
the produced chunk sequence equal the vendor's text payloads, in order —
and when the stream ends normally (for Anthropic: the vendor event
sequence terminates with `message_stop`; for Google: unconditionally,
since the adapter appends a final chunk) the last emitted chunk carries a
non-null finish reason. -/
theorem stream_order_and_final_finish (times : Nat → Int) (model : String) :
    (∀ texts : List String,
      (GoogleProvider.streamChunks times model texts).filterMap chunkContent
          = texts.filter (fun t => t != "") ∧
      lastHasFinish (GoogleProvider.streamChunks times model texts) = true) ∧
    (∀ events : List AnthropicStreamEvent,
      (AnthropicProvider.streamChunks times model events).filterMap chunkContent
          = events.filterMap anthropicEventText ∧
      (events.getLast? = some .messageStop →
        lastHasFinish (AnthropicProvider.streamChunks times model events) = true)) := by
  refine ⟨fun texts => ⟨googleGo_content times model texts 0, googleGo_last times model texts 0⟩,
    fun events => ⟨anthropicGo_content times model events 0,
      fun h => anthropicGo_last times model events 0 h⟩⟩

/-- A constant `Date.now()` reading for concrete evaluations. -/
def zeroTimes : Nat → Int := fun _ => 0

/-- Witness for C8 at concrete inputs. -/
theorem stream_order_and_final_finish_witness :
    (GoogleProvider.streamChunks zeroTimes "gemini-1.5-flash" ["Hel", "", "lo"]).filterMap
        chunkContent = ["Hel", "lo"] ∧
    lastHasFinish (GoogleProvider.streamChunks zeroTimes "gemini-1.5-flash" ["Hel", "", "lo"])
        = true ∧
    lastHasFinish (AnthropicProvider.streamChunks zeroTimes "claude-3-5-sonnet-20241022"
        [AnthropicStreamEvent.contentBlockDelta 0 (some "Hi"),
         AnthropicStreamEvent.messageStop]) = true := by
  have hg := (stream_order_and_final_finish zeroTimes "gemini-1.5-flash").1 ["Hel", "", "lo"]
  have ha := (stream_order_and_final_finish zeroTimes "claude-3-5-sonnet-20241022").2
    [AnthropicStreamEvent.contentBlockDelta 0 (some "Hi"), AnthropicStreamEvent.messageStop]
  refine ⟨?_, hg.2, ha.2 (by decide)⟩
  rw [hg.1]
  decide

/-! ## C9 — admission control before vendor calls -/

/-- **C9** (counterexample): `OpenAIProvider.embed` (and likewise
`GoogleProvider.embed`) issues the vendor call with **zero** rate-limiter
acquires: a vendor call happens without having passed admission control. -/
theorem embed_no_admission_counterexample :
    (providerEmbedEvents (.ok embedOkResp)).count .acq = 0 ∧
    OpEvent.callVendor ∈ providerEmbedEvents (.ok embedOkResp) := by
  decide

/-- **C9** (amended): `complete` and `stream` acquire a rate-limit permit
before issuing the vendor call — their event traces begin
`[acquire, vendor-call]` for every vendor outcome and, for streams, for
every consumer that starts the generator — but `embed` never acquires at
all: its vendor call is issued without admission control. -/
theorem admission_before_vendor_call
    (v : Except AIError AICompletionResponse)
    (ev : Except AIError AIEmbeddingResponse)
    (chunks : List AIStreamChunk) (verr : Option AIError) (consumed : Option Nat)
    (hstarted : consumed ≠ some 0) :
    (providerCompleteEvents v).take 2 = [.acq, .callVendor] ∧
    (providerStreamEvents chunks verr consumed).take 2 = [.acq, .callVendor] ∧
    (providerEmbedEvents ev).count .acq = 0 := by
  refine ⟨?_, ?_, ?_⟩
  · cases v <;> rfl
  · rcases consumed with _ | k
    · cases verr <;> rfl
    · rcases k with _ | k
      · exact absurd rfl hstarted
      · by_cases hk : k + 1 ≤ chunks.length <;>
          simp [providerStreamEvents, hk, List.take_succ_cons]
  · cases ev <;> rfl

/-- Witness for the amended C9 theorem at concrete inputs. -/
theorem admission_before_vendor_call_witness :
    (providerCompleteEvents (.ok sampleResponse)).take 2 = [.acq, .callVendor] ∧
    (providerStreamEvents [oaChunk] none (some 1)).take 2 = [.acq, .callVendor] ∧
    (providerEmbedEvents (.ok embedOkResp)).count .acq = 0 :=
  admission_before_vendor_call (.ok sampleResponse) (.ok embedOkResp)
    [oaChunk] none (some 1) (by decide)
